import Mathlib

/-!
# Shallow embedding of the llama-nexus conversation-persistence core

This file embeds the conversation storage layer (`src/database.rs`) and the
chat relay handler (`src/routes/responses.rs`) of the repository and proves
the specification claims about them.

Modelling conventions:
* Rust `String`s are modelled as `List Char` (named `Str` below), so that
  `strip_prefix` and `format!` concatenation have directly reasoned-about
  semantics.
* `chrono::DateTime<Utc>` timestamps are modelled as `Nat`; `Utc::now()` is
  modelled by an explicit time parameter, with monotonicity of the wall
  clock stated as a hypothesis where a claim needs it.
* The SQLite table `chat_messages` is modelled as the list of its rows in
  primary-key (insertion) order together with the next autoincrement key.
  The query `SELECT … WHERE session_id = ? ORDER BY timestamp ASC` is
  modelled as a filter over the rows in key-scan order followed by a stable
  sort on the timestamp column (`List.insertionSort` is stable).
* The tokio `Mutex<HashMap<String, Vec<String>>>` volatile fallback is
  modelled as an association list from session id to the stored lines; the
  lock itself has no sequential semantics.
* Fallible sqlx calls are modelled with `Except Str`; an injectable
  `Option Str` fault argument stands for an I/O failure of the durable
  backend (the volatile branch never fails, as in the source).
-/

/-- Rust `String`, modelled as its character sequence. -/
abbrev Str := List Char

/-- `database.rs`: `pub struct ChatMessage` (timestamp as `Nat`, surrogate
key as `Option Nat`). -/
structure ChatMessage where
  id : Option Nat
  session_id : Str
  user_message : Str
  bot_reply : Str
  timestamp : Nat
deriving DecidableEq, Repr

/-- State of `DatabaseManager`: the `chat_messages` table rows in
primary-key order, plus the next `AUTOINCREMENT` key. -/
structure DurableState where
  rows : List ChatMessage
  nextId : Nat
deriving DecidableEq, Repr

/-- `DatabaseManager::save_message`: `INSERT INTO chat_messages …`; SQLite
assigns the next autoincrement key to the new row. -/
def save_message (db : DurableState) (m : ChatMessage) : DurableState :=
  { rows := db.rows ++ [{ m with id := some db.nextId }], nextId := db.nextId + 1 }

/-- Timestamp comparison used to model `ORDER BY timestamp ASC`. -/
def tsLE (a b : ChatMessage) : Prop := a.timestamp ≤ b.timestamp

instance : DecidableRel tsLE := fun a b => Nat.decLe a.timestamp b.timestamp

/-- `DatabaseManager::get_session_history`:
`SELECT id, session_id, user_message, bot_reply, timestamp FROM chat_messages
WHERE session_id = ? ORDER BY timestamp ASC`. Rows are scanned in
primary-key order and the `ORDER BY` is modelled as a stable sort on the
timestamp column. -/
def get_session_history (db : DurableState) (sid : Str) : List ChatMessage :=
  List.insertionSort tsLE (db.rows.filter (fun m => m.session_id == sid))

/-- State of the in-memory fallback
`ChatHistory = Arc<Mutex<HashMap<String, Vec<String>>>>`, as an association
list from session id to stored lines. -/
abbrev MemState := List (Str × List Str)

/-- `HashMap::get` on the fallback map. -/
def memGet (mem : MemState) (sid : Str) : Option (List Str) :=
  match mem with
  | [] => none
  | (k, v) :: rest => if k == sid then some v else memGet rest sid

/-- `HashMap::entry(sid).or_default()` followed by applying `f` to the
entry's vector: updates the existing entry in place, or inserts
`f []` for a missing key. -/
def memUpdate (mem : MemState) (sid : Str) (f : List Str → List Str) : MemState :=
  match mem with
  | [] => [(sid, f [])]
  | (k, v) :: rest => if k == sid then (k, f v) :: rest else (k, v) :: memUpdate rest sid f

/-- `ChatStorage`: durable-backed (`database: Some(db)`) or memory-only
(`database: None`). -/
inductive ChatStorageState where
  | durable (db : DurableState)
  | volatile (mem : MemState)
deriving DecidableEq, Repr

/-- The literal `"User: "` line marker of the volatile store. -/
def userTag : Str := "User: ".toList

/-- The literal `"Bot: "` line marker of the volatile store. -/
def botTag : Str := "Bot: ".toList

/-- `format!("User: {}", user_message)`. -/
def userLine (u : Str) : Str := userTag ++ u

/-- `format!("Bot: {}", bot_reply)`. -/
def botLine (b : Str) : Str := botTag ++ b

/-- `ChatStorage::save_conversation` on success: build the `ChatMessage`
with the current time and append it durably, or push the two formatted
lines onto the session's vector in the fallback map. -/
def saveStep (now : Nat) (st : ChatStorageState) (sid u b : Str) : ChatStorageState :=
  match st with
  | .durable db =>
      .durable (save_message db
        { id := none, session_id := sid, user_message := u, bot_reply := b, timestamp := now })
  | .volatile mem =>
      .volatile (memUpdate mem sid (fun ls => ls ++ [userLine u, botLine b]))

/-- `ChatStorage::save_conversation`. `dbFault` injects a failure of the
underlying `db.save_message` sqlx call (a failed `INSERT` writes nothing);
the volatile branch never fails. -/
def save_conversation (dbFault : Option Str) (now : Nat) (st : ChatStorageState)
    (sid u b : Str) : Except Str ChatStorageState :=
  match st, dbFault with
  | .durable _, some e => .error e
  | _, _ => .ok (saveStep now st sid u b)

/-- Rust `starts_with` check used by `strip_prefix`, on character lists. -/
def hasTag : Str → Str → Bool
  | [], _ => true
  | _ :: _, [] => false
  | a :: as, b :: bs => a == b && hasTag as bs

/-- Rust `line.strip_prefix(tag).unwrap_or(line)`: remove the leading tag
if present, otherwise keep the whole line. -/
def stripOr (tag s : Str) : Str :=
  if hasTag tag s then s.drop tag.length else s

/-- The `while i + 1 < lines.len()` pairing loop of
`ChatStorage::get_session_pairs` (volatile branch): consume two lines per
step, stripping the expected `"User: "`/`"Bot: "` markers, and stop when
fewer than two lines remain. -/
def pairLines : List Str → List (Str × Str)
  | u :: b :: rest => (stripOr userTag u, stripOr botTag b) :: pairLines rest
  | _ => []

/-- `ChatStorage::get_session_pairs`: durable mode maps the ordered history
rows to `(user_message, bot_reply)`; volatile mode pairs the stored lines
two at a time (a missing key yields `vec![]`). `dbFault` injects a failure
of the underlying `get_session_history` query. -/
def get_session_pairs (dbFault : Option Str) (st : ChatStorageState) (sid : Str) :
    Except Str (List (Str × Str)) :=
  match st, dbFault with
  | .durable _, some e => .error e
  | .durable db, none =>
      .ok ((get_session_history db sid).map (fun m => (m.user_message, m.bot_reply)))
  | .volatile mem, _ =>
      match memGet mem sid with
      | none => .ok []
      | some lines => .ok (pairLines lines)

/-- `ChatStorage::get_conversation_history`: durable mode flattens each row
into two display lines; volatile mode returns the stored lines (missing key
gives the empty vector). -/
def get_conversation_history (dbFault : Option Str) (st : ChatStorageState) (sid : Str) :
    Except Str (List Str) :=
  match st, dbFault with
  | .durable _, some e => .error e
  | .durable db, none =>
      .ok ((get_session_history db sid).foldl
        (fun acc m => acc ++ [userLine m.user_message, botLine m.bot_reply]) [])
  | .volatile mem, _ => .ok ((memGet mem sid).getD [])

/-- Record a sequence of turns through `save_conversation` with no injected
fault, each with its own `Utc::now()` value. -/
def recordTurns (st : ChatStorageState) (sid : Str) :
    List (Str × Str × Nat) → ChatStorageState
  | [] => st
  | (u, b, t) :: rest => recordTurns (saveStep t st sid u b) sid rest

/-! ## The relay handler (`src/routes/responses.rs`)

External collaborators are passed in as explicit arguments:
* `models` is the flattened iteration
  `state.models.read().values().flat_map(|v| v.iter())` of registered model
  ids (so an empty registry is the empty list);
* `acquire` is the combined outcome of looking up the chat server group and
  calling `chat_group.next()`, already mapped to its `ServerError`;
* `send` is the downstream network call for the serialized request: either
  a transport failure (`reqwest` send error) or an HTTP response carrying
  its status, its body text, and the outcome of `resp.json()`.
URL formatting and the authorization-header forwarding have no bearing on
any claim and are not modelled beyond the `ChatServer` fields.
-/

/-- `routes/responses.rs`: `pub struct ChatRequest`. -/
structure ChatRequest where
  session_id : Str
  user_message : Str
  model : Option Str
deriving DecidableEq, Repr

/-- `routes/responses.rs`: `pub struct ChatResponse`. -/
structure ChatResponse where
  reply : Str
deriving DecidableEq, Repr

/-- `ServerError::Operation(msg)`, the only error variant `handle_response`
produces. -/
inductive ServerError where
  | operation (msg : Str)
deriving DecidableEq, Repr

/-- A downstream chat server handed back by the routing group. -/
structure ChatServer where
  url : Str
  api_key : Option Str
deriving DecidableEq, Repr

/-- A chat message of the downstream request body
(`ChatCompletionRequestMessage`): `new_system_message`,
`new_user_message(Text …)`, or `new_assistant_message(Some …)`. -/
inductive ChatMsg where
  | system (content : Str)
  | user (content : Str)
  | assistant (content : Option Str)
deriving DecidableEq, Repr

/-- The downstream request body (`ChatCompletionRequest`; all other fields
come from `Default::default()` and are never read by this core). -/
structure ChatCompletionRequest where
  model : Option Str
  messages : List ChatMsg
  stream : Option Bool
deriving DecidableEq, Repr

/-- A `serde_json::Value`. -/
inductive Json where
  | null
  | bool (b : Bool)
  | num (n : Int)
  | str (s : Str)
  | arr (elems : List Json)
  | obj (fields : List (Str × Json))

/-- Key lookup in a JSON object's field list. -/
def lookupField : List (Str × Json) → Str → Option Json
  | [], _ => none
  | (k, v) :: rest, key => if k == key then some v else lookupField rest key

/-- `Value::get(&str)`: field of an object, `None` on any other shape. -/
def Json.getField : Json → Str → Option Json
  | .obj fields, key => lookupField fields key
  | _, _ => none

/-- `Value::get(usize)`: index into an array, `None` on any other shape. -/
def Json.getIdx : Json → Nat → Option Json
  | .arr elems, i => elems.get? i
  | _, _ => none

/-- `Value::as_str()`. -/
def Json.asStr : Json → Option Str
  | .str s => some s
  | _ => none

/-- Outcome of the downstream `client.json(&request_body).send()` call. -/
inductive SendResult where
  | sendError (e : Str)
  | response (status : Nat) (body : Str) (json : Except Str Json)

/-- `reqwest::StatusCode::is_success()`: 200–299. -/
def statusIsSuccess (status : Nat) : Bool :=
  200 ≤ status && status < 300

/-- Decimal rendering of a status code for `format!` interpolation.
(The `http` crate's `Display` also appends the canonical reason phrase;
that lookup table is outside this core and omitted here.) -/
def natToStr (n : Nat) : Str := (toString n).toList

/-- `format!("Downstream request failed: {e}")`. -/
def sendFailMsg (e : Str) : Str := "Downstream request failed: ".toList ++ e

/-- `format!("Downstream chat error {status}: {text}")`. -/
def downstreamErrMsg (status : Nat) (text : Str) : Str :=
  "Downstream chat error ".toList ++ natToStr status ++ ": ".toList ++ text

/-- `format!("Failed to parse downstream response JSON: {e}")`. -/
def parseFailMsg (e : Str) : Str :=
  "Failed to parse downstream response JSON: ".toList ++ e

/-- The `"No chat model registered"` error text. -/
def noModelMsg : Str := "No chat model registered".toList

/-- The literal placeholder reply `"(no content)"`. -/
def noContentText : Str := "(no content)".toList

/-- Step 1 of `handle_response`: use the request's `model` field if
present, else the first registered model id, else fail. -/
def resolve_model (reqModel : Option Str) (models : List Str) : Except ServerError Str :=
  match reqModel with
  | some m => .ok m
  | none =>
      match models with
      | m :: _ => .ok m
      | [] => .error (.operation noModelMsg)

/-- `SYSTEM_PROMPT` of `handle_response`. -/
def SYSTEM_PROMPT : Str :=
  "You are an AI assistant. Answer as helpfully and concisely as possible.".toList

/-- Step 2 of `handle_response`: push the system prompt, then — only when
`get_session_pairs` returned `Ok` — push a user and an assistant message
per pair, then push the new user message. -/
def build_messages (histRes : Except Str (List (Str × Str))) (newMsg : Str) : List ChatMsg :=
  let base := [ChatMsg.system SYSTEM_PROMPT]
  let withHist :=
    match histRes with
    | .ok pairs =>
        pairs.foldl (fun acc p => acc ++ [ChatMsg.user p.1, ChatMsg.assistant (some p.2)]) base
    | .error _ => base
  withHist ++ [ChatMsg.user newMsg]

/-- The context assembler: history fetched from storage, then
`build_messages`. -/
def assemble_context (histFault : Option Str) (st : ChatStorageState) (sid newMsg : Str) :
    List ChatMsg :=
  build_messages (get_session_pairs histFault st sid) newMsg

/-- The `value.get("choices")… .as_str()` extraction chain of
`handle_response`, before the `unwrap_or`. -/
def extract_path (v : Json) : Option Str :=
  ((((v.getField "choices".toList).bind (fun c => c.getIdx 0)).bind
      (fun c0 => c0.getField "message".toList)).bind
      (fun m => m.getField "content".toList)).bind Json.asStr

/-- `bot_reply` extraction: the chain's result, or the literal
`"(no content)"` when any step is structurally absent. -/
def extract_content (v : Json) : Str :=
  (extract_path v).getD noContentText

/-- `handle_response`: resolve the model, assemble the context, build the
request body, acquire a chat server, send, check the HTTP status, parse the
JSON, extract the reply, persist the turn (a persistence error is printed
and discarded), and return the reply. Returns the handler result together
with the storage state after the call. -/
def handle_response (models : List Str) (acquire : Except ServerError ChatServer)
    (send : ChatCompletionRequest → SendResult)
    (histFault savFault : Option Str) (now : Nat)
    (st : ChatStorageState) (req : ChatRequest) :
    Except ServerError ChatResponse × ChatStorageState :=
  match resolve_model req.model models with
  | .error e => (.error e, st)
  | .ok model =>
    let messages := assemble_context histFault st req.session_id req.user_message
    let requestBody : ChatCompletionRequest :=
      { model := some model, messages := messages, stream := some false }
    match acquire with
    | .error e => (.error e, st)
    | .ok _server =>
      match send requestBody with
      | .sendError e => (.error (.operation (sendFailMsg e)), st)
      | .response status text jsonRes =>
        if statusIsSuccess status then
          match jsonRes with
          | .error e => (.error (.operation (parseFailMsg e)), st)
          | .ok v =>
            let bot_reply := extract_content v
            let st' :=
              match save_conversation savFault now st req.session_id req.user_message
                  bot_reply with
              | .ok s => s
              | .error _ => st
            (.ok { reply := bot_reply }, st')
        else
          (.error (.operation (downstreamErrMsg status text)), st)

/-! ## Helper lemmas -/

theorem hasTag_append (tag s : Str) : hasTag tag (tag ++ s) = true := by
  induction tag with
  | nil => rfl
  | cons a as ih => simp [hasTag, ih]

theorem stripOr_append (tag s : Str) : stripOr tag (tag ++ s) = s := by
  simp [stripOr, hasTag_append, List.drop_left]

theorem stripOr_of_no_tag (tag s : Str) (h : hasTag tag s = false) : stripOr tag s = s := by
  simp [stripOr, h]

/-- The fully interleaved user/assistant rendering of a pair list, used to
state the shape of the assembled context. -/
def interleavePairs : List (Str × Str) → List ChatMsg
  | [] => []
  | (u, b) :: rest => ChatMsg.user u :: ChatMsg.assistant (some b) :: interleavePairs rest

theorem foldl_push_pairs (pairs : List (Str × Str)) (acc : List ChatMsg) :
    pairs.foldl (fun acc p => acc ++ [ChatMsg.user p.1, ChatMsg.assistant (some p.2)]) acc =
      acc ++ interleavePairs pairs := by
  induction pairs generalizing acc with
  | nil => simp [interleavePairs]
  | cons p rest ih =>
      cases p with
      | mk u b => simp [interleavePairs, ih, List.append_assoc]

theorem interleavePairs_length (pairs : List (Str × Str)) :
    (interleavePairs pairs).length = 2 * pairs.length := by
  induction pairs with
  | nil => rfl
  | cons p rest ih =>
      cases p with
      | mk u b => simp [interleavePairs, ih]; omega

theorem pairLines_length : ∀ lines : List Str, (pairLines lines).length = lines.length / 2
  | [] => rfl
  | [u] => by
      have h : pairLines [u] = [] := rfl
      simp [h]
  | u :: b :: rest => by
      have ih := pairLines_length rest
      simp only [pairLines, List.length_cons]
      omega

theorem pairLines_dropLast_odd : ∀ lines : List Str, lines.length % 2 = 1 →
    pairLines lines = pairLines lines.dropLast
  | [], h => by simp at h
  | [_], _ => rfl
  | u :: b :: rest, h => by
      have hr : rest.length % 2 = 1 := by
        simp only [List.length_cons] at h
        omega
      obtain ⟨r, rs, rfl⟩ : ∃ r rs, rest = r :: rs := by
        cases rest with
        | nil => simp at hr
        | cons r rs => exact ⟨r, rs, rfl⟩
      have ih := pairLines_dropLast_odd (r :: rs) hr
      simp only [List.dropLast_cons₂, pairLines]
      rw [ih]

theorem pairLines_getElem? : ∀ (lines : List Str) (i : Nat), 2 * i + 1 < lines.length →
    (pairLines lines)[i]? =
      some (stripOr userTag (lines.getD (2 * i) []),
            stripOr botTag (lines.getD (2 * i + 1) []))
  | [], _, h => by simp at h
  | [u], _, h => by
      simp only [List.length_singleton] at h
      exact absurd h (by omega)
  | u :: b :: rest, 0, _ => by simp [pairLines]
  | u :: b :: rest, i + 1, h => by
      have hlt : 2 * i + 1 < rest.length := by
        simp only [List.length_cons] at h
        omega
      have ih := pairLines_getElem? rest i hlt
      have e1 : 2 * (i + 1) = 2 * i + 1 + 1 := by omega
      have e2 : 2 * (i + 1) + 1 = 2 * i + 1 + 1 + 1 := by omega
      simp only [pairLines, e1, e2, List.getD_cons_succ, List.getElem?_cons_succ]
      exact ih

/-! ## Claims -/

/-- C3: whenever `history_pairs` succeeds with `N` pairs, the assembled
downstream message list is exactly one fixed system-directive message,
then for each pair in order a user-role message followed by an
assistant-role message, then one user-role message with the new inbound
text last; its length is `2 * N + 2`. -/
theorem assemble_context_shape (histFault : Option Str) (st : ChatStorageState)
    (sid newMsg : Str) (pairs : List (Str × Str))
    (h : get_session_pairs histFault st sid = .ok pairs) :
    assemble_context histFault st sid newMsg =
      ChatMsg.system SYSTEM_PROMPT :: (interleavePairs pairs ++ [ChatMsg.user newMsg]) ∧
    (assemble_context histFault st sid newMsg).length = 2 * pairs.length + 2 := by
  have hmain : assemble_context histFault st sid newMsg =
      ChatMsg.system SYSTEM_PROMPT :: (interleavePairs pairs ++ [ChatMsg.user newMsg]) := by
    simp [assemble_context, build_messages, h, foldl_push_pairs]
  refine ⟨hmain, ?_⟩
  rw [hmain]
  simp [interleavePairs_length]

/-- Witness for C3 at a one-pair history. -/
theorem assemble_context_shape_witness :
    assemble_context none (.volatile [("s".toList, ["User: a".toList, "Bot: b".toList])])
        "s".toList "hi".toList =
      ChatMsg.system SYSTEM_PROMPT ::
        (interleavePairs [("a".toList, "b".toList)] ++ [ChatMsg.user "hi".toList]) ∧
    (assemble_context none (.volatile [("s".toList, ["User: a".toList, "Bot: b".toList])])
        "s".toList "hi".toList).length = 2 * [("a".toList, "b".toList)].length + 2 :=
  assemble_context_shape none _ _ _ [("a".toList, "b".toList)] (by rfl)

/-- C4: in volatile mode, a stored line sequence of odd length `2k + 1`
yields exactly the `k` pairs built from its first `2k` lines — the result
on the full sequence is the result on `dropLast` — and `get_session_pairs`
returns them as a success, not an error. -/
theorem volatile_pairs_odd_drops_last (mem : MemState) (sid : Str)
    (lines : List Str) (k : Nat)
    (hget : memGet mem sid = some lines) (hlen : lines.length = 2 * k + 1) :
    get_session_pairs none (.volatile mem) sid = .ok (pairLines lines.dropLast) ∧
    (pairLines lines).length = k := by
  have hodd : lines.length % 2 = 1 := by omega
  constructor
  · simp [get_session_pairs, hget]
    exact pairLines_dropLast_odd lines hodd
  · rw [pairLines_length]
    omega

/-- Witness for C4 at the spec's example `["User: a", "Bot: b", "User: c"]`. -/
theorem volatile_pairs_odd_drops_last_witness :
    get_session_pairs none (.volatile [("s".toList,
        ["User: a".toList, "Bot: b".toList, "User: c".toList])]) "s".toList =
      .ok (pairLines (["User: a".toList, "Bot: b".toList, "User: c".toList].dropLast)) ∧
    (pairLines ["User: a".toList, "Bot: b".toList, "User: c".toList]).length = 1 :=
  volatile_pairs_odd_drops_last _ _ _ 1 rfl rfl

/-- C10: in volatile mode pairing never returns an error; a stored line
without the expected `"User: "` or `"Bot: "` marker is used raw as the
message text; and which marker is expected at a line is determined purely
by the line's position parity (even index → user slot of pair `i = idx/2`,
odd index → bot slot). -/
theorem malformed_lines_used_raw :
    (∀ (fault : Option Str) (mem : MemState) (sid : Str),
        ∃ ps, get_session_pairs fault (.volatile mem) sid = .ok ps) ∧
    (∀ s : Str, hasTag userTag s = false → stripOr userTag s = s) ∧
    (∀ s : Str, hasTag botTag s = false → stripOr botTag s = s) ∧
    (∀ (lines : List Str) (i : Nat), 2 * i + 1 < lines.length →
        (pairLines lines)[i]? =
          some (stripOr userTag (lines.getD (2 * i) []),
                stripOr botTag (lines.getD (2 * i + 1) []))) := by
  refine ⟨?_, fun s h => stripOr_of_no_tag _ _ h, fun s h => stripOr_of_no_tag _ _ h,
    pairLines_getElem?⟩
  intro fault mem sid
  cases hm : memGet mem sid with
  | none => exact ⟨[], by cases fault <;> simp [get_session_pairs, hm]⟩
  | some lines => exact ⟨pairLines lines, by cases fault <;> simp [get_session_pairs, hm]⟩

/-- Witness for C10: a malformed even-position line `"raw"` is used
verbatim as the user text of its pair. -/
theorem malformed_lines_used_raw_witness :
    (∃ ps, get_session_pairs none (.volatile [("s".toList, ["x".toList])]) "s".toList =
      .ok ps) ∧
    stripOr userTag "raw".toList = "raw".toList ∧
    (pairLines ["raw".toList, "Bot: b".toList, "z".toList])[0]? =
      some (stripOr userTag (["raw".toList, "Bot: b".toList, "z".toList].getD 0 []),
            stripOr botTag (["raw".toList, "Bot: b".toList, "z".toList].getD 1 [])) :=
  ⟨malformed_lines_used_raw.1 none _ _,
   malformed_lines_used_raw.2.1 "raw".toList (by decide),
   malformed_lines_used_raw.2.2.2 ["raw".toList, "Bot: b".toList, "z".toList] 0 (by decide)⟩

/-- C5: if `history_pairs` fails during context assembly, the assembled
message list is exactly the system directive followed by the new user
message, and — for a downstream backend whose outcome does not depend on
the request — the handler's caller-visible result and final storage state
are the same as without the history failure: the request is not aborted
because of it. -/
theorem history_failure_degrades_to_empty (models : List Str)
    (acquire : Except ServerError ChatServer) (send : ChatCompletionRequest → SendResult)
    (histFault savFault : Option Str) (now : Nat) (st : ChatStorageState)
    (req : ChatRequest) (e : Str)
    (h : get_session_pairs histFault st req.session_id = .error e)
    (hconst : ∀ q q' : ChatCompletionRequest, send q = send q') :
    assemble_context histFault st req.session_id req.user_message =
      [ChatMsg.system SYSTEM_PROMPT, ChatMsg.user req.user_message] ∧
    handle_response models acquire send histFault savFault now st req =
      handle_response models acquire send none savFault now st req := by
  constructor
  · simp [assemble_context, build_messages, h]
  · cases hr : resolve_model req.model models with
    | error e' => simp [handle_response, hr]
    | ok mdl =>
        cases hacq : acquire with
        | error e' => simp [handle_response, hr, hacq]
        | ok srv =>
            have hsend := hconst
              { model := some mdl,
                messages := assemble_context histFault st req.session_id req.user_message,
                stream := some false }
              { model := some mdl,
                messages := assemble_context none st req.session_id req.user_message,
                stream := some false }
            simp [handle_response, hr, hacq, hsend]

/-- Witness for C5: a durable-backend read fault degrades to the
two-message context and leaves the handler outcome unchanged. -/
theorem history_failure_degrades_to_empty_witness :
    assemble_context (some "io".toList) (.durable ⟨[], 1⟩) "s".toList "hi".toList =
      [ChatMsg.system SYSTEM_PROMPT, ChatMsg.user "hi".toList] ∧
    handle_response ["m".toList] (.ok ⟨"u".toList, none⟩)
        (fun _ => .response 200 [] (.ok (Json.obj []))) (some "io".toList) none 7
        (.durable ⟨[], 1⟩) ⟨"s".toList, "hi".toList, none⟩ =
      handle_response ["m".toList] (.ok ⟨"u".toList, none⟩)
        (fun _ => .response 200 [] (.ok (Json.obj []))) none none 7
        (.durable ⟨[], 1⟩) ⟨"s".toList, "hi".toList, none⟩ :=
  history_failure_degrades_to_empty ["m".toList] (.ok ⟨"u".toList, none⟩)
    (fun _ => .response 200 [] (.ok (Json.obj []))) (some "io".toList) none 7
    (.durable ⟨[], 1⟩) ⟨"s".toList, "hi".toList, none⟩ "io".toList rfl (fun _ _ => rfl)

/-- C6: when the downstream call succeeded and a reply was extracted, a
failing `save_conversation` does not change the caller-visible outcome:
the handler still returns the extracted reply, the persistence error is
discarded (the result equals the no-fault result), and the durable storage
state is unchanged by the failed insert. -/
theorem save_failure_preserves_success (models : List Str)
    (acquire : Except ServerError ChatServer) (send : ChatCompletionRequest → SendResult)
    (histFault : Option Str) (now : Nat) (db : DurableState) (req : ChatRequest)
    (status : Nat) (body : Str) (v : Json) (mdl : Str) (srv : ChatServer) (e : Str)
    (hm : resolve_model req.model models = .ok mdl)
    (hacq : acquire = .ok srv)
    (hsend : ∀ q, send q = .response status body (.ok v))
    (hstatus : statusIsSuccess status = true) :
    handle_response models acquire send histFault (some e) now (.durable db) req =
      (.ok { reply := extract_content v }, .durable db) ∧
    (handle_response models acquire send histFault (some e) now (.durable db) req).1 =
      (handle_response models acquire send histFault none now (.durable db) req).1 := by
  constructor
  · simp [handle_response, hm, hacq, hsend, hstatus, save_conversation]
  · simp [handle_response, hm, hacq, hsend, hstatus, save_conversation]

/-- Witness for C6: a failing insert after a successful reply. -/
theorem save_failure_preserves_success_witness :
    handle_response ["m".toList] (.ok ⟨"u".toList, none⟩)
        (fun _ => .response 200 []
          (.ok (Json.obj [("choices".toList,
            Json.arr [Json.obj [("message".toList,
              Json.obj [("content".toList, Json.str "hello".toList)])]])])))
        none (some "disk full".toList) 7 (.durable ⟨[], 1⟩)
        ⟨"s".toList, "hi".toList, some "m".toList⟩ =
      (.ok { reply := extract_content (Json.obj [("choices".toList,
            Json.arr [Json.obj [("message".toList,
              Json.obj [("content".toList, Json.str "hello".toList)])]])]) },
       .durable ⟨[], 1⟩) ∧
    (handle_response ["m".toList] (.ok ⟨"u".toList, none⟩)
        (fun _ => .response 200 []
          (.ok (Json.obj [("choices".toList,
            Json.arr [Json.obj [("message".toList,
              Json.obj [("content".toList, Json.str "hello".toList)])]])])))
        none (some "disk full".toList) 7 (.durable ⟨[], 1⟩)
        ⟨"s".toList, "hi".toList, some "m".toList⟩).1 =
    (handle_response ["m".toList] (.ok ⟨"u".toList, none⟩)
        (fun _ => .response 200 []
          (.ok (Json.obj [("choices".toList,
            Json.arr [Json.obj [("message".toList,
              Json.obj [("content".toList, Json.str "hello".toList)])]])])))
        none none 7 (.durable ⟨[], 1⟩)
        ⟨"s".toList, "hi".toList, some "m".toList⟩).1 :=
  save_failure_preserves_success _ _ _ _ _ _ _ 200 [] _ "m".toList ⟨"u".toList, none⟩
    "disk full".toList rfl rfl (fun _ => rfl) rfl

/-- C7: with no explicit model field and an empty model registry, the
handler fails with the no-model error and leaves the storage state
unchanged; an explicit model field is always used as-is, and otherwise the
first registered model id is used. -/
theorem no_model_error_and_resolution (models : List Str)
    (acquire : Except ServerError ChatServer) (send : ChatCompletionRequest → SendResult)
    (histFault savFault : Option Str) (now : Nat) (st : ChatStorageState)
    (req : ChatRequest)
    (hm : req.model = none) (hreg : models = []) :
    handle_response models acquire send histFault savFault now st req =
      (.error (.operation noModelMsg), st) ∧
    (∀ (m : Str) (models' : List Str), resolve_model (some m) models' = .ok m) ∧
    (∀ (m : Str) (ms : List Str), resolve_model none (m :: ms) = .ok m) := by
  refine ⟨?_, fun m models' => rfl, fun m ms => rfl⟩
  subst hreg
  simp [handle_response, resolve_model, hm]

/-- Witness for C7: empty registry and no explicit model. -/
theorem no_model_error_and_resolution_witness :
    handle_response [] (.ok ⟨"u".toList, none⟩) (fun _ => .sendError "x".toList)
        none none 7 (.volatile []) ⟨"s".toList, "hi".toList, none⟩ =
      (.error (.operation noModelMsg), .volatile []) ∧
    (∀ (m : Str) (models' : List Str), resolve_model (some m) models' = .ok m) ∧
    (∀ (m : Str) (ms : List Str), resolve_model none (m :: ms) = .ok m) :=
  no_model_error_and_resolution [] _ _ none none 7 (.volatile [])
    ⟨"s".toList, "hi".toList, none⟩ rfl rfl

/-- C8: a reachable backend answering with a non-success HTTP status makes
the handler fail with the downstream error carrying that status and the
response body, and the storage state is unchanged — no turn is recorded. -/
theorem downstream_error_propagated (models : List Str)
    (acquire : Except ServerError ChatServer) (send : ChatCompletionRequest → SendResult)
    (histFault savFault : Option Str) (now : Nat) (st : ChatStorageState)
    (req : ChatRequest) (status : Nat) (body : Str) (jsonRes : Except Str Json)
    (mdl : Str) (srv : ChatServer)
    (hm : resolve_model req.model models = .ok mdl)
    (hacq : acquire = .ok srv)
    (hsend : ∀ q, send q = .response status body jsonRes)
    (hstatus : statusIsSuccess status = false) :
    handle_response models acquire send histFault savFault now st req =
      (.error (.operation (downstreamErrMsg status body)), st) := by
  simp [handle_response, hm, hacq, hsend, hstatus]

/-- Witness for C8: an HTTP 500 answer with body `"boom"`. -/
theorem downstream_error_propagated_witness :
    handle_response ["m".toList] (.ok ⟨"u".toList, none⟩)
        (fun _ => .response 500 "boom".toList (.error "not json".toList))
        none none 7 (.volatile []) ⟨"s".toList, "hi".toList, some "m".toList⟩ =
      (.error (.operation (downstreamErrMsg 500 "boom".toList)), .volatile []) :=
  downstream_error_propagated _ _ _ _ _ _ _ _ 500 "boom".toList _ "m".toList
    ⟨"u".toList, none⟩ rfl rfl (fun _ => rfl) rfl

/-- C9: when the successful downstream body's first-choice message content
is structurally absent (the extraction chain yields `none`), the extracted
reply is the literal placeholder and the handler still returns success
with that placeholder — the call is never aborted for an incomplete reply
shape. -/
theorem missing_content_placeholder (models : List Str)
    (acquire : Except ServerError ChatServer) (send : ChatCompletionRequest → SendResult)
    (histFault savFault : Option Str) (now : Nat) (st : ChatStorageState)
    (req : ChatRequest) (status : Nat) (body : Str) (v : Json) (mdl : Str)
    (srv : ChatServer)
    (hm : resolve_model req.model models = .ok mdl)
    (hacq : acquire = .ok srv)
    (hsend : ∀ q, send q = .response status body (.ok v))
    (hstatus : statusIsSuccess status = true)
    (habsent : extract_path v = none) :
    extract_content v = noContentText ∧
    (handle_response models acquire send histFault savFault now st req).1 =
      .ok { reply := noContentText } := by
  have hc : extract_content v = noContentText := by
    simp [extract_content, habsent]
  refine ⟨hc, ?_⟩
  simp [handle_response, hm, hacq, hsend, hstatus, hc]

/-- Witness for C9: a body whose `choices` array is empty. -/
theorem missing_content_placeholder_witness :
    extract_content (Json.obj [("choices".toList, Json.arr [])]) = noContentText ∧
    (handle_response ["m".toList] (.ok ⟨"u".toList, none⟩)
        (fun _ => .response 200 [] (.ok (Json.obj [("choices".toList, Json.arr [])])))
        none none 7 (.volatile []) ⟨"s".toList, "hi".toList, some "m".toList⟩).1 =
      .ok { reply := noContentText } :=
  missing_content_placeholder _ _ _ _ _ _ _ _ 200 [] _ "m".toList ⟨"u".toList, none⟩
    rfl rfl (fun _ => rfl) rfl rfl

/-! ## Lemmas for the round-trip and ordering claims -/

/-- One stored row as inserted for a recorded turn. -/
def mkRow (sid : Str) (nid : Nat) (u b : Str) (t : Nat) : ChatMessage :=
  { id := some nid, session_id := sid, user_message := u, bot_reply := b, timestamp := t }

/-- The rows `save_conversation` appends for a turn sequence, with
autoincrement keys starting at `nid`. -/
def mkRows (sid : Str) : Nat → List (Str × Str × Nat) → List ChatMessage
  | _, [] => []
  | nid, (u, b, t) :: rest => mkRow sid nid u b t :: mkRows sid (nid + 1) rest

theorem recordTurns_durable (sid : Str) : ∀ (turns : List (Str × Str × Nat))
    (rows : List ChatMessage) (nid : Nat),
    recordTurns (.durable ⟨rows, nid⟩) sid turns =
      .durable ⟨rows ++ mkRows sid nid turns, nid + turns.length⟩
  | [], rows, nid => by simp [recordTurns, mkRows]
  | (u, b, t) :: rest, rows, nid => by
      have ih := recordTurns_durable sid rest (rows ++ [mkRow sid nid u b t]) (nid + 1)
      show recordTurns (saveStep t (.durable ⟨rows, nid⟩) sid u b) sid rest = _
      rw [show saveStep t (.durable ⟨rows, nid⟩) sid u b =
        .durable ⟨rows ++ [mkRow sid nid u b t], nid + 1⟩ from rfl]
      rw [ih]
      simp [mkRows, List.append_assoc]
      omega

theorem filter_mkRows (sid : Str) : ∀ (turns : List (Str × Str × Nat)) (nid : Nat),
    (mkRows sid nid turns).filter (fun m => m.session_id == sid) = mkRows sid nid turns
  | [], _ => rfl
  | (u, b, t) :: rest, nid => by
      simp [mkRows, mkRow, List.filter_cons, filter_mkRows sid rest (nid + 1)]

theorem mem_mkRows (sid : Str) : ∀ (turns : List (Str × Str × Nat)) (nid : Nat)
    (r : ChatMessage), r ∈ mkRows sid nid turns → ∃ x ∈ turns, r.timestamp = x.2.2
  | [], _, r, h => by simp [mkRows] at h
  | (u, b, t) :: rest, nid, r, h => by
      simp only [mkRows, List.mem_cons] at h
      rcases h with h | h
      · exact ⟨(u, b, t), List.mem_cons_self _ _, by rw [h]; rfl⟩
      · obtain ⟨x, hx, he⟩ := mem_mkRows sid rest (nid + 1) r h
        exact ⟨x, List.mem_cons_of_mem _ hx, he⟩

theorem mkRows_sorted (sid : Str) : ∀ (turns : List (Str × Str × Nat)) (nid : Nat),
    turns.Pairwise (fun a b => a.2.2 ≤ b.2.2) →
    (mkRows sid nid turns).Pairwise tsLE
  | [], _, _ => List.Pairwise.nil
  | (u, b, t) :: rest, nid, h => by
      obtain ⟨hhead, htail⟩ := List.pairwise_cons.mp h
      refine List.Pairwise.cons ?_ (mkRows_sorted sid rest (nid + 1) htail)
      intro r hr
      obtain ⟨x, hx, he⟩ := mem_mkRows sid rest (nid + 1) r hr
      show t ≤ r.timestamp
      rw [he]
      exact hhead x hx

theorem mkRows_pairs (sid : Str) : ∀ (turns : List (Str × Str × Nat)) (nid : Nat),
    (mkRows sid nid turns).map (fun m => (m.user_message, m.bot_reply)) =
      turns.map (fun x => (x.1, x.2.1))
  | [], _ => rfl
  | (u, b, t) :: rest, nid => by
      simp [mkRows, mkRow, mkRows_pairs sid rest (nid + 1)]

theorem memGet_memUpdate_self (mem : MemState) (sid : Str) (f : List Str → List Str) :
    memGet (memUpdate mem sid f) sid = some (f ((memGet mem sid).getD [])) := by
  induction mem with
  | nil => simp [memGet, memUpdate]
  | cons kv rest ih =>
      cases kv with
      | mk k v =>
          by_cases h : (k == sid) = true
          · simp [memGet, memUpdate, h]
          · simp [memGet, memUpdate, h, ih]

/-- The flattened `"User: …"/"Bot: …"` line sequence of a turn list. -/
def flattenTurns : List (Str × Str × Nat) → List Str
  | [] => []
  | (u, b, _) :: rest => userLine u :: botLine b :: flattenTurns rest

theorem pairLines_flattenTurns : ∀ turns : List (Str × Str × Nat),
    pairLines (flattenTurns turns) = turns.map (fun x => (x.1, x.2.1))
  | [] => rfl
  | (u, b, t) :: rest => by
      simp [flattenTurns, pairLines, userLine, botLine, stripOr_append,
        pairLines_flattenTurns rest]

theorem recordTurns_volatile (sid : Str) : ∀ (turns : List (Str × Str × Nat))
    (mem : MemState),
    ∃ mem', recordTurns (.volatile mem) sid turns = .volatile mem' ∧
      (memGet mem' sid).getD [] = (memGet mem sid).getD [] ++ flattenTurns turns
  | [], mem => ⟨mem, rfl, by simp [flattenTurns]⟩
  | (u, b, t) :: rest, mem => by
      obtain ⟨mem', hrec, hget⟩ := recordTurns_volatile sid rest
        (memUpdate mem sid (fun ls => ls ++ [userLine u, botLine b]))
      refine ⟨mem', ?_, ?_⟩
      · show recordTurns (saveStep t (.volatile mem) sid u b) sid rest = .volatile mem'
        exact hrec
      · rw [hget, memGet_memUpdate_self]
        simp [flattenTurns, List.append_assoc]

/-- C1: starting from a state in which session `sid` has no stored data,
recording `N` turns through `save_conversation` (with the wall clock
non-decreasing across the calls) makes `get_session_pairs` return exactly
the `N` `(user_message, bot_reply)` pairs of those turns in recording
order, in durable mode and in volatile mode alike. -/
theorem history_pairs_records_all_turns (sid : Str) (turns : List (Str × Str × Nat))
    (rows : List ChatMessage) (nid : Nat) (mem : MemState)
    (hfresh : ∀ m ∈ rows, m.session_id ≠ sid)
    (hchrono : turns.Pairwise (fun a b => a.2.2 ≤ b.2.2))
    (hmem : (memGet mem sid).getD [] = []) :
    get_session_pairs none (recordTurns (.durable ⟨rows, nid⟩) sid turns) sid =
      .ok (turns.map (fun x => (x.1, x.2.1))) ∧
    get_session_pairs none (recordTurns (.volatile mem) sid turns) sid =
      .ok (turns.map (fun x => (x.1, x.2.1))) := by
  constructor
  · rw [recordTurns_durable]
    have hrows : rows.filter (fun m => m.session_id == sid) = [] :=
      List.filter_eq_nil_iff.mpr (fun m hm => by simp [hfresh m hm])
    have hfilter : (rows ++ mkRows sid nid turns).filter (fun m => m.session_id == sid) =
        mkRows sid nid turns := by
      rw [List.filter_append, filter_mkRows, hrows, List.nil_append]
    simp only [get_session_pairs, get_session_history]
    rw [hfilter, List.Sorted.insertionSort_eq (mkRows_sorted sid turns nid hchrono),
      mkRows_pairs]
  · obtain ⟨mem', hrec, hget⟩ := recordTurns_volatile sid turns mem
    rw [hrec, hmem, List.nil_append] at *
    rw [hrec]
    cases hm' : memGet mem' sid with
    | none =>
        rw [hm'] at hget
        simp only [Option.getD_none] at hget
        have hturns : turns = [] := by
          cases turns with
          | nil => rfl
          | cons x r =>
              obtain ⟨u, b, t⟩ := x
              simp [flattenTurns] at hget
        subst hturns
        simp [get_session_pairs, hm']
    | some lines =>
        rw [hm'] at hget
        simp only [Option.getD_some] at hget
        subst hget
        simp [get_session_pairs, hm', pairLines_flattenTurns]

/-- Witness for C1: two turns with equal timestamps, recorded over initial
states already holding another session's data. -/
theorem history_pairs_records_all_turns_witness :
    get_session_pairs none
        (recordTurns (.durable ⟨[mkRow "t".toList 1 "x".toList "y".toList 9], 2⟩)
          "s".toList [("a".toList, "b".toList, 5), ("c".toList, "d".toList, 5)])
        "s".toList =
      .ok [("a".toList, "b".toList), ("c".toList, "d".toList)] ∧
    get_session_pairs none
        (recordTurns (.volatile [("t".toList, ["junk".toList])]) "s".toList
          [("a".toList, "b".toList, 5), ("c".toList, "d".toList, 5)])
        "s".toList =
      .ok [("a".toList, "b".toList), ("c".toList, "d".toList)] := by
  have h := history_pairs_records_all_turns "s".toList
    [("a".toList, "b".toList, 5), ("c".toList, "d".toList, 5)]
    [mkRow "t".toList 1 "x".toList "y".toList 9] 2 [("t".toList, ["junk".toList])]
    (by decide) (by decide) (by decide)
  exact ⟨by rw [h.1]; rfl, by rw [h.2]; rfl⟩

/-- Surrogate-key comparison: both rows persisted, first key smaller. -/
def idLt (a b : ChatMessage) : Bool :=
  match a.id, b.id with
  | some i, some j => decide (i < j)
  | _, _ => false

/-- Retrieval order stated by the spec: strictly increasing timestamp, or
equal timestamps with increasing surrogate key. -/
def tsIdLex (a b : ChatMessage) : Prop :=
  a.timestamp < b.timestamp ∨ (a.timestamp = b.timestamp ∧ idLt a b = true)

theorem tsIdLex_ts_le {a b : ChatMessage} (h : tsIdLex a b) :
    a.timestamp ≤ b.timestamp := by
  rcases h with h | ⟨h, _⟩ <;> omega

theorem orderedInsert_pairwise_lex (a : ChatMessage) :
    ∀ l : List ChatMessage, l.Pairwise tsIdLex → (∀ b ∈ l, idLt a b = true) →
      (List.orderedInsert tsLE a l).Pairwise tsIdLex
  | [], _, _ => by simp [List.orderedInsert]
  | b :: t, hp, hb => by
      by_cases h : tsLE a b
      · rw [List.orderedInsert, if_pos h]
        refine List.Pairwise.cons ?_ hp
        intro c hc
        have hidc : idLt a c = true := hb c hc
        have hab : a.timestamp ≤ b.timestamp := h
        have hle : a.timestamp ≤ c.timestamp := by
          rcases List.mem_cons.mp hc with rfl | hct
          · exact hab
          · exact le_trans hab (tsIdLex_ts_le ((List.pairwise_cons.mp hp).1 c hct))
        rcases Nat.lt_or_ge a.timestamp c.timestamp with hlt | hge
        · exact Or.inl hlt
        · exact Or.inr ⟨Nat.le_antisymm hle hge, hidc⟩
      · rw [List.orderedInsert, if_neg h]
        obtain ⟨hbt, hpt⟩ := List.pairwise_cons.mp hp
        refine List.Pairwise.cons ?_
          (orderedInsert_pairwise_lex a t hpt (fun c hc => hb c (List.mem_cons_of_mem _ hc)))
        intro c hc
        have hc' : c ∈ a :: t := (List.perm_orderedInsert tsLE a t).mem_iff.mp hc
        rcases List.mem_cons.mp hc' with he | hct
        · have hnot : ¬ a.timestamp ≤ b.timestamp := h
          subst he
          exact Or.inl (by omega)
        · exact hbt c hct

theorem insertionSort_pairwise_lex : ∀ l : List ChatMessage,
    l.Pairwise (fun a b => idLt a b = true) →
    (List.insertionSort tsLE l).Pairwise tsIdLex
  | [], _ => by simp [List.insertionSort]
  | a :: l, h => by
      obtain ⟨ha, hl⟩ := List.pairwise_cons.mp h
      rw [List.insertionSort]
      exact orderedInsert_pairwise_lex a _ (insertionSort_pairwise_lex l hl)
        (fun b hb => ha b ((List.mem_insertionSort tsLE).mp hb))

/-- C2: in durable mode, when the stored rows carry strictly increasing
surrogate keys (the autoincrement invariant), `get_session_history`
returns exactly the session's rows (a permutation of the filtered table)
ordered by ascending timestamp with equal-timestamp rows in ascending
surrogate-key — i.e. insertion — order. -/
theorem get_session_history_sorted_ties_by_id (db : DurableState) (sid : Str)
    (hids : db.rows.Pairwise (fun a b => idLt a b = true)) :
    (get_session_history db sid).Perm
      (db.rows.filter (fun m => m.session_id == sid)) ∧
    (get_session_history db sid).Pairwise tsIdLex := by
  constructor
  · exact List.perm_insertionSort tsLE _
  · exact insertionSort_pairwise_lex _
      (List.Pairwise.sublist (List.filter_sublist _) hids)

/-- Witness for C2: three rows of one session, two of them with equal
timestamps, inserted out of timestamp order. -/
theorem get_session_history_sorted_ties_by_id_witness :
    (get_session_history ⟨[mkRow "s".toList 1 "a".toList "b".toList 5,
        mkRow "s".toList 2 "c".toList "d".toList 5,
        mkRow "s".toList 3 "e".toList "f".toList 4], 4⟩ "s".toList).Perm
      (([mkRow "s".toList 1 "a".toList "b".toList 5,
        mkRow "s".toList 2 "c".toList "d".toList 5,
        mkRow "s".toList 3 "e".toList "f".toList 4]).filter
          (fun m => m.session_id == "s".toList)) ∧
    (get_session_history ⟨[mkRow "s".toList 1 "a".toList "b".toList 5,
        mkRow "s".toList 2 "c".toList "d".toList 5,
        mkRow "s".toList 3 "e".toList "f".toList 4], 4⟩ "s".toList).Pairwise tsIdLex :=
  get_session_history_sorted_ties_by_id _ _ (by decide)
